import Mathlib

/-
  Verification of the client-side shopping cart / pricing engine
  (class ShoppingCart).

  Shallow embedding conventions:
  * money and rates are exact rationals (ℚ); quantities are integers (Int);
  * product ids are strings (the repository's products carry uuid string
    ids, so the source's String(product.id) coercion is the identity);
  * a JS value that may be undefined is an Option;
  * each method becomes a function on an explicit CartState; methods that
    return a value return it paired with (or alongside) the state;
  * localStorage content is modelled by StoredValue.
-/

/-- A line item as stored in this.items.  The source stores
    id, name, price, quantity, imageUrl, category, discount;
    name may be undefined because addItem never validates product.name. -/
structure LineItem where
  id : String
  name : Option String
  price : ℚ
  quantity : Int
  imageUrl : String
  category : String
  discount : ℚ
deriving Repr, DecidableEq

/-- In-memory engine state: this.items and this.discountRate. -/
structure CartState where
  items : List LineItem
  discountRate : ℚ
deriving Repr, DecidableEq

/-- A product record handed to addItem by the catalog boundary.
    Fields the source reads; any of them may be absent (undefined). -/
structure Product where
  id : Option String
  name : Option String
  price : ℚ
  imageUrl : Option String
  category : Option String
  discount : Option ℚ
deriving Repr, DecidableEq

/-- The object returned by getTotals(). -/
structure Totals where
  subtotal : ℚ
  discountAmount : ℚ
  discountedSubtotal : ℚ
  tax : ℚ
  total : ℚ
  itemCount : Int
deriving Repr, DecidableEq

/-- One item of the getCheckoutData() payload. -/
structure CheckoutItem where
  id : String
  name : Option String
  price : ℚ
  quantity : Int
  discount : ℚ
deriving Repr, DecidableEq

/-- The getCheckoutData() payload. -/
structure CheckoutData where
  items : List CheckoutItem
  subtotal : ℚ
  discount : ℚ
  tax : ℚ
  total : ℚ
  itemCount : Int
deriving Repr, DecidableEq

/-- What the localStorage slot under STORAGE_KEY can hold:
    absent, unparseable JSON, a legacy bare array, or the current
    envelope object written by saveToStorage. -/
inductive StoredValue where
  | empty
  | corrupt
  | legacyArray (items : List LineItem)
  | envelope (items : List LineItem) (discountRate : ℚ)
deriving Repr, DecidableEq

/-- The value loadFromStorage() returns: either a bare array
    (legacy / empty / corrupt fallback) or the whole envelope object. -/
inductive LoadResult where
  | arr (items : List LineItem)
  | env (items : List LineItem) (discountRate : ℚ)
deriving Repr, DecidableEq

namespace ShoppingCart

def STORAGE_KEY : String := "maricafe_cart"

/-- this.taxRate = 0.1. -/
def taxRate : ℚ := 1/10

/-- Helper for the addItem branch `existingItem.quantity += quantity`:
    Array.prototype.find returns the first match, and only that object
    is mutated. -/
def bumpFirst : List LineItem → String → Int → List LineItem
  | [], _, _ => []
  | it :: rest, pid, q =>
    if it.id == pid then { it with quantity := it.quantity + q } :: rest
    else it :: bumpFirst rest pid q

/-- The object pushed by addItem when no item with this id exists:
    `String(product.id)` is the identity on string ids, `|| ''` and
    `|| 0` default the optional fields. -/
def newLineItem (p : Product) (pid : String) (q : Int) : LineItem :=
  { id := pid
    name := p.name
    price := p.price
    quantity := q
    imageUrl := p.imageUrl.getD ""
    category := p.category.getD ""
    discount := p.discount.getD 0 }

/-- addItem(product, quantity).  The source's guard is
    `if (!product || !product.id)`: it rejects a missing product, a
    missing id or an empty-string id (falsy), and nothing else.
    In the source quantity defaults to 1. -/
def addItem (s : CartState) (product : Option Product) (quantity : Int) :
    Bool × CartState :=
  match product with
  | none => (false, s)
  | some p =>
    match p.id with
    | none => (false, s)
    | some pid =>
      if pid.isEmpty then (false, s)
      else if s.items.any fun it => it.id == pid then
        (true, { s with items := bumpFirst s.items pid quantity })
      else
        (true, { s with items := s.items ++ [newLineItem p pid quantity] })

/-- removeItem(productId): `this.items = this.items.filter(item => item.id !== productId)`. -/
def removeItem (s : CartState) (productId : String) : CartState :=
  { s with items := s.items.filter fun it => !(it.id == productId) }

/-- Helper for `item.quantity = quantity` on the first find(...) match. -/
def setQtyFirst : List LineItem → String → Int → List LineItem
  | [], _, _ => []
  | it :: rest, pid, q =>
    if it.id == pid then { it with quantity := q } :: rest
    else it :: setQtyFirst rest pid q

/-- updateQuantity(productId, quantity). -/
def updateQuantity (s : CartState) (productId : String) (quantity : Int) :
    CartState :=
  if s.items.any fun it => it.id == productId then
    if quantity ≤ 0 then removeItem s productId
    else { s with items := setQtyFirst s.items productId quantity }
  else s

/-- clear(), confirmed path: `this.items = []` (this.discountRate untouched). -/
def clear (s : CartState) : CartState :=
  { s with items := [] }

/-- getTotals(): one forEach pass accumulating subtotal and the per-item
    discount total, then the global discount, tax and total.
    `item.discount || 0` and `this.discountRate || 0` are the identity on
    rationals (0 || 0 is 0). -/
def getTotals (s : CartState) : Totals :=
  let acc := s.items.foldl
    (fun acc it =>
      (acc.1 + it.price * (it.quantity : ℚ),
       acc.2 + it.price * (it.discount / 100) * (it.quantity : ℚ)))
    ((0 : ℚ), (0 : ℚ))
  let subtotal := acc.1
  let discountAmount := acc.2
  let afterItemDiscount := subtotal - discountAmount
  let globalDiscountAmount := afterItemDiscount * s.discountRate
  let totalDiscount := discountAmount + globalDiscountAmount
  let discountedSubtotal := subtotal - totalDiscount
  let tax := max 0 discountedSubtotal * taxRate
  let total := discountedSubtotal + tax
  { subtotal := subtotal
    discountAmount := totalDiscount
    discountedSubtotal := discountedSubtotal
    tax := tax
    total := total
    itemCount := s.items.foldl (fun sum it => sum + it.quantity) 0 }

/-- getItemCount(): `this.items.reduce((sum, item) => sum + item.quantity, 0)`. -/
def getItemCount (s : CartState) : Int :=
  s.items.foldl (fun sum it => sum + it.quantity) 0

/-- getCheckoutData(). -/
def getCheckoutData (s : CartState) : CheckoutData :=
  let totals := getTotals s
  { items := s.items.map fun it =>
      { id := it.id, name := it.name, price := it.price,
        quantity := it.quantity, discount := it.discount }
    subtotal := totals.subtotal
    discount := totals.discountAmount
    tax := totals.tax
    total := totals.total
    itemCount := totals.itemCount }

/-- saveToStorage(): always writes the envelope
    `{ items: this.items, discountRate: this.discountRate }`. -/
def saveToStorage (s : CartState) : StoredValue :=
  .envelope s.items s.discountRate

/-- loadFromStorage(): `[]` when the slot is empty or unparseable, the
    bare array when a legacy array is stored, and the whole parsed
    envelope object when the envelope is stored (`parsed.items` is a
    truthy object even when the list is empty). -/
def loadFromStorage : StoredValue → LoadResult
  | .empty => .arr []
  | .corrupt => .arr []
  | .legacyArray items => .arr items
  | .envelope items r => .env items r

/-- The constructor's hydration (after `this.items = []`,
    `this.discountRate = 0`): an array result is taken as the item list;
    an envelope result is unwrapped, with `stored.discountRate || 0`. -/
def hydrate (stored : StoredValue) : CartState :=
  match loadFromStorage stored with
  | .arr items => { items := items, discountRate := 0 }
  | .env items r => { items := items, discountRate := if r = 0 then 0 else r }

/-- What `this.items` holds after the storage event handler ran: the
    handler assigns the raw loadFromStorage() result, which can be the
    whole envelope object rather than an item list. -/
inductive ItemsField where
  | list (items : List LineItem)
  | envObj (items : List LineItem) (discountRate : ℚ)
deriving Repr, DecidableEq

/-- The tab's in-memory fields (this.items, this.discountRate) after the
    storage listener ran. -/
structure JsCartView where
  itemsField : ItemsField
  discountRate : ℚ
deriving Repr, DecidableEq

/-- The storage listener installed by init(): on an event for
    STORAGE_KEY it runs `this.items = this.loadFromStorage()` and leaves
    this.discountRate untouched; on any other key it does nothing. -/
def handleStorageEvent (key : String) (s : CartState) (stored : StoredValue) :
    JsCartView :=
  if key == STORAGE_KEY then
    { itemsField :=
        match loadFromStorage stored with
        | .arr items => .list items
        | .env items r => .envObj items r
      discountRate := s.discountRate }
  else
    { itemsField := .list s.items, discountRate := s.discountRate }

/-- Uppercasing of one character as `toUpperCase()` acts on the ASCII
    range (the discount codes are ASCII). -/
def jsToUpperChar (ch : Char) : Char :=
  if 'a' ≤ ch ∧ ch ≤ 'z' then Char.ofNat (ch.toNat - 32) else ch

/-- `code.toUpperCase()`. -/
def jsToUpper (s : String) : String :=
  ⟨s.data.map jsToUpperChar⟩

/-- `code.trim()`: strip leading and trailing whitespace. -/
def jsTrim (s : String) : String :=
  ⟨((s.data.dropWhile Char.isWhitespace).reverse.dropWhile
      Char.isWhitespace).reverse⟩

/-- `code.trim().toUpperCase()`. -/
def normalizeCode (c : String) : String :=
  jsToUpper (jsTrim c)

/-- The fixed discount-code table of applyDiscountCode. -/
def discountCodes : List (String × ℚ) := [("SAVE10", 1/10), ("SAVE15", 15/100)]

/-- applyDiscountCode(code).  The argument is `none` for a non-string
    input.  The first component is the returned value: the guard
    `if (!code || typeof code !== 'string')` exits with a bare `return`
    (undefined, modelled `none`); the other paths return booleans.  The
    third component is the storage write the call performs, if any.
    (`if (codes[normalized])` is a truthiness test; both table values are
    nonzero, so it coincides with the lookup succeeding.) -/
def applyDiscountCode (s : CartState) (code : Option String) :
    Option Bool × CartState × Option StoredValue :=
  match code with
  | none => (none, s, none)
  | some c =>
    if c.isEmpty then (none, s, none)
    else
      match discountCodes.lookup (normalizeCode c) with
      | some r =>
        let s2 := { s with discountRate := r }
        (some true, s2, some (saveToStorage s2))
      | none => (some false, s, none)

/-- Method-level view of getTotals(): the body only reads this.items and
    this.discountRate, so as a state transformer it returns the computed
    totals and passes the state through unchanged. -/
def getTotalsM (s : CartState) : Totals × CartState :=
  (getTotals s, s)

end ShoppingCart

/-- The totals algorithm as the specification words it, steps 1-8:
    sums over the items, afterItemDiscount, globalDiscountAmount,
    totalDiscount, discountedSubtotal, tax with the max(0,_) clamp at
    rate 0.10, total, and itemCount as the sum of all quantities. -/
def specTotals (s : CartState) : Totals :=
  let subtotal := (s.items.map fun it => it.price * (it.quantity : ℚ)).sum
  let perItemDiscountTotal :=
    (s.items.map fun it => it.price * (it.discount / 100) * (it.quantity : ℚ)).sum
  let afterItemDiscount := subtotal - perItemDiscountTotal
  let globalDiscountAmount := afterItemDiscount * s.discountRate
  let totalDiscount := perItemDiscountTotal + globalDiscountAmount
  let discountedSubtotal := subtotal - totalDiscount
  let tax := max 0 discountedSubtotal * (1/10 : ℚ)
  let total := discountedSubtotal + tax
  { subtotal := subtotal
    discountAmount := totalDiscount
    discountedSubtotal := discountedSubtotal
    tax := tax
    total := total
    itemCount := (s.items.map fun it => it.quantity).sum }

open ShoppingCart

theorem foldl_pair_sum (f g : LineItem → ℚ) (l : List LineItem) :
    ∀ a b : ℚ,
      l.foldl (fun acc it => (acc.1 + f it, acc.2 + g it)) (a, b) =
        (a + (l.map f).sum, b + (l.map g).sum) := by
  induction l with
  | nil => intro a b; simp
  | cons x xs ih =>
    intro a b
    simp only [List.foldl_cons, List.map_cons, List.sum_cons, ih, Prod.mk.injEq]
    constructor <;> ring

theorem foldl_qty_sum (l : List LineItem) :
    ∀ a : Int,
      l.foldl (fun sum it => sum + it.quantity) a =
        a + (l.map fun it => it.quantity).sum := by
  induction l with
  | nil => intro a; simp
  | cons x xs ih =>
    intro a
    simp only [List.foldl_cons, List.map_cons, List.sum_cons, ih]
    ring

/-- The cart of the spec's worked example: one item priced 10.00,
    quantity 2, discountPercent 10, with globalDiscountRate 0.10. -/
def exampleCart : CartState :=
  { items := [{ id := "p1", name := some "Widget", price := 10, quantity := 2,
                imageUrl := "", category := "", discount := 10 }]
    discountRate := 1/10 }

/-- C1: getTotals computes exactly the specified algorithm (per-item
    discounts first, global rate applied to the post-item-discount
    subtotal, tax = max(0, discountedSubtotal) x 0.10, total and
    itemCount as specified), and on one item priced 10.00 x qty 2 with
    discountPercent 10 under globalDiscountRate 0.10 it returns
    subtotal 20, total discount 3.80, discountedSubtotal 16.20,
    tax 1.62, total 17.82, itemCount 2. -/
theorem getTotals_eq_specTotals :
    (∀ s : CartState, getTotals s = specTotals s) ∧
      getTotals exampleCart =
        { subtotal := 20, discountAmount := 19/5, discountedSubtotal := 81/5,
          tax := 81/50, total := 891/50, itemCount := 2 } := by
  constructor
  · intro s
    unfold getTotals specTotals taxRate
    rw [foldl_pair_sum, foldl_qty_sum]
    simp
  · simp only [getTotals, exampleCart, taxRate, List.foldl_cons, List.foldl_nil]
    norm_num [max_def]

/-- Number of line items carrying a given product id. -/
def countId (items : List LineItem) (pid : String) : Nat :=
  (items.filter fun it => it.id == pid).length

/-- Total quantity held by the line items carrying a given product id. -/
def qtyOfId (items : List LineItem) (pid : String) : Int :=
  ((items.filter fun it => it.id == pid).map fun it => it.quantity).sum

/-- A sequence of addItem calls with the same product, one per quantity
    in the list (the returned booleans are discarded). -/
def addItems (s : CartState) (p : Option Product) (qs : List Int) : CartState :=
  qs.foldl (fun st q => (addItem st p q).2) s

theorem any_of_filter_single {items : List LineItem} {p : LineItem → Bool}
    {it : LineItem} (h : items.filter p = [it]) : items.any p = true := by
  have hmem : it ∈ items.filter p := by rw [h]; exact List.mem_singleton_self it
  exact List.any_eq_true.mpr ⟨it, (List.mem_filter.mp hmem).1, (List.mem_filter.mp hmem).2⟩

theorem addItem_found (s : CartState) (p : Product) (pid : String) (q : Int)
    (hid : p.id = some pid) (hne : pid.isEmpty = false)
    (hany : (s.items.any fun it => it.id == pid) = true) :
    addItem s (some p) q = (true, { s with items := bumpFirst s.items pid q }) := by
  simp [addItem, hid, hne, hany]

theorem addItem_notfound (s : CartState) (p : Product) (pid : String) (q : Int)
    (hid : p.id = some pid) (hne : pid.isEmpty = false)
    (hany : (s.items.any fun it => it.id == pid) = false) :
    addItem s (some p) q =
      (true, { s with items := s.items ++ [newLineItem p pid q] }) := by
  simp [addItem, hid, hne, hany]

theorem filter_bumpFirst_single (pid : String) (q : Int) :
    ∀ (items : List LineItem) (it : LineItem),
      items.filter (fun x => x.id == pid) = [it] →
      (bumpFirst items pid q).filter (fun x => x.id == pid) =
        [{ it with quantity := it.quantity + q }] := by
  intro items
  induction items with
  | nil => intro it h; simp at h
  | cons x xs ih =>
    intro it h
    cases hx : (x.id == pid) with
    | true =>
      have hfc : (x :: xs).filter (fun y => y.id == pid) =
          x :: xs.filter (fun y => y.id == pid) := by
        simp [List.filter_cons, hx]
      rw [hfc] at h
      injection h with h1 h2
      subst h1
      have hbc : bumpFirst (x :: xs) pid q =
          { x with quantity := x.quantity + q } :: xs := by
        simp [bumpFirst, hx]
      have hfc2 : ({ x with quantity := x.quantity + q } :: xs).filter
            (fun y => y.id == pid) =
          { x with quantity := x.quantity + q } ::
            xs.filter (fun y => y.id == pid) := by
        simp [List.filter_cons, hx]
      rw [hbc, hfc2, h2]
    | false =>
      have hfc : (x :: xs).filter (fun y => y.id == pid) =
          xs.filter (fun y => y.id == pid) := by
        simp [List.filter_cons, hx]
      rw [hfc] at h
      have hbc : bumpFirst (x :: xs) pid q = x :: bumpFirst xs pid q := by
        simp [bumpFirst, hx]
      have hfc2 : (x :: bumpFirst xs pid q).filter (fun y => y.id == pid) =
          (bumpFirst xs pid q).filter (fun y => y.id == pid) := by
        simp [List.filter_cons, hx]
      rw [hbc, hfc2]
      exact ih it h

theorem addItems_filter_single (p : Product) (pid : String)
    (hid : p.id = some pid) (hne : pid.isEmpty = false) :
    ∀ (qs : List Int) (s : CartState) (it : LineItem),
      s.items.filter (fun x => x.id == pid) = [it] →
      (addItems s (some p) qs).items.filter (fun x => x.id == pid) =
        [{ it with quantity := it.quantity + qs.sum }] := by
  intro qs
  induction qs with
  | nil =>
    intro s it h
    simpa [addItems] using h
  | cons q qs ih =>
    intro s it h
    have hany := any_of_filter_single h
    have hstep := addItem_found s p pid q hid hne hany
    have h2 : (addItem s (some p) q).2.items.filter (fun x => x.id == pid) =
        [{ it with quantity := it.quantity + q }] := by
      rw [hstep]
      exact filter_bumpFirst_single pid q s.items it h
    have h3 := ih (addItem s (some p) q).2 _ h2
    rw [show addItems s (some p) (q :: qs) =
          addItems (addItem s (some p) q).2 (some p) qs from rfl, h3]
    simp only [List.sum_cons, List.cons.injEq, and_true, LineItem.mk.injEq,
      eq_self_iff_true, true_and]
    omega

/-- C2: starting from a cart holding no item of the product's id, a
    sequence of addItem calls with that product leaves exactly one
    LineItem with that id, holding the sum of the requested quantities,
    and at most one such LineItem exists after every addItem call. -/
theorem addItem_same_id_accumulates (p : Product) (pid : String) (s : CartState)
    (qs : List Int) (hid : p.id = some pid) (hne : pid.isEmpty = false)
    (h0 : countId s.items pid = 0) :
    (∀ qs2 : List Int, countId (addItems s (some p) qs2).items pid ≤ 1) ∧
    (qs ≠ [] →
      countId (addItems s (some p) qs).items pid = 1 ∧
      qtyOfId (addItems s (some p) qs).items pid = qs.sum) := by
  have hnil : s.items.filter (fun x => x.id == pid) = [] :=
    List.length_eq_zero.mp h0
  have key : ∀ (q : Int) (qs2 : List Int),
      (addItems s (some p) (q :: qs2)).items.filter (fun x => x.id == pid) =
        [newLineItem p pid (q + qs2.sum)] := by
    intro q qs2
    have hany : (s.items.any fun it => it.id == pid) = false := by
      rw [List.any_eq_false]
      intro x hx hpx
      have hmem : x ∈ s.items.filter (fun x => x.id == pid) :=
        List.mem_filter.mpr ⟨hx, hpx⟩
      rw [hnil] at hmem
      cases hmem
    have hstep := addItem_notfound s p pid q hid hne hany
    have h1 : (addItem s (some p) q).2.items.filter (fun x => x.id == pid) =
        [newLineItem p pid q] := by
      rw [hstep]
      simp only [List.filter_append, hnil, List.nil_append]
      simp [newLineItem]
    have h2 := addItems_filter_single p pid hid hne qs2 (addItem s (some p) q).2 _ h1
    rw [show addItems s (some p) (q :: qs2) =
          addItems (addItem s (some p) q).2 (some p) qs2 from rfl, h2]
    simp [newLineItem]
  constructor
  · intro qs2
    cases qs2 with
    | nil =>
      show countId s.items pid ≤ 1
      rw [h0]
      decide
    | cons q qs2 =>
      unfold countId
      rw [key q qs2]
      simp
  · intro hqs
    cases qs with
    | nil => exact absurd rfl hqs
    | cons q qs2 =>
      refine ⟨?_, ?_⟩
      · unfold countId
        rw [key q qs2]
        simp
      · unfold qtyOfId
        rw [key q qs2]
        simp [newLineItem, List.sum_cons]

/-- The product used in concrete instantiations for C2/C6/C8. -/
def wProduct : Product :=
  { id := some "p1", name := some "Apple", price := 5, imageUrl := none,
    category := none, discount := none }

/-- C2 witness: two addItem calls with quantities 2 and 3 on an empty
    cart leave one line item of that id with quantity 5. -/
theorem addItem_same_id_accumulates_witness :
    countId (addItems ⟨[], 0⟩ (some wProduct) [2, 3]).items "p1" = 1 ∧
    qtyOfId (addItems ⟨[], 0⟩ (some wProduct) [2, 3]).items "p1" = 5 := by
  have h := (addItem_same_id_accumulates wProduct "p1" ⟨[], 0⟩ [2, 3]
    rfl rfl (by decide)).2 (by decide)
  exact ⟨h.1, by rw [h.2]; decide⟩


/-- C3: persisting any cart state and hydrating a new engine from the
    same storage reproduces the identical item list and discount rate;
    a legacy bare-array value hydrates to that array with rate 0; and
    the engine always writes the envelope format. -/
theorem storage_roundtrip :
    ∀ (s : CartState) (a : List LineItem),
      hydrate (saveToStorage s) = s ∧
      hydrate (StoredValue.legacyArray a) = { items := a, discountRate := 0 } ∧
      saveToStorage s = StoredValue.envelope s.items s.discountRate := by
  intro s a
  refine ⟨?_, rfl, rfl⟩
  cases s with
  | mk items r =>
    simp only [saveToStorage, hydrate, loadFromStorage]
    by_cases hr : r = 0
    · subst hr; simp
    · simp [hr]

/-- C9: getTotals is pure: as a state transformer it returns the state
    unchanged, and a second call on the state it returns yields the same
    totals as the first call. -/
theorem getTotals_pure :
    ∀ s : CartState,
      (getTotalsM s).2 = s ∧
      (getTotalsM (getTotalsM s).2).1 = (getTotalsM s).1 :=
  fun _ => ⟨rfl, rfl⟩

/-- C10: getItemCount, the itemCount field of getTotals and the
    itemCount field of getCheckoutData all equal the sum of the
    quantities of the line items. -/
theorem itemCount_consistent :
    ∀ s : CartState,
      getItemCount s = (getTotals s).itemCount ∧
      (getCheckoutData s).itemCount = (getTotals s).itemCount ∧
      getItemCount s = (s.items.map fun it => it.quantity).sum := by
  intro s
  refine ⟨rfl, rfl, ?_⟩
  unfold getItemCount
  rw [foldl_qty_sum]
  simp

theorem filter_setQtyFirst_single (pid : String) (q : Int) :
    ∀ (items : List LineItem) (it : LineItem),
      items.filter (fun x => x.id == pid) = [it] →
      (setQtyFirst items pid q).filter (fun x => x.id == pid) =
        [{ it with quantity := q }] := by
  intro items
  induction items with
  | nil => intro it h; simp at h
  | cons x xs ih =>
    intro it h
    cases hx : (x.id == pid) with
    | true =>
      have hfc : (x :: xs).filter (fun y => y.id == pid) =
          x :: xs.filter (fun y => y.id == pid) := by
        simp [List.filter_cons, hx]
      rw [hfc] at h
      injection h with h1 h2
      subst h1
      have hbc : setQtyFirst (x :: xs) pid q = { x with quantity := q } :: xs := by
        simp [setQtyFirst, hx]
      have hfc2 : ({ x with quantity := q } :: xs).filter (fun y => y.id == pid) =
          { x with quantity := q } :: xs.filter (fun y => y.id == pid) := by
        simp [List.filter_cons, hx]
      rw [hbc, hfc2, h2]
    | false =>
      have hfc : (x :: xs).filter (fun y => y.id == pid) =
          xs.filter (fun y => y.id == pid) := by
        simp [List.filter_cons, hx]
      rw [hfc] at h
      have hbc : setQtyFirst (x :: xs) pid q = x :: setQtyFirst xs pid q := by
        simp [setQtyFirst, hx]
      have hfc2 : (x :: setQtyFirst xs pid q).filter (fun y => y.id == pid) =
          (setQtyFirst xs pid q).filter (fun y => y.id == pid) := by
        simp [List.filter_cons, hx]
      rw [hbc, hfc2]
      exact ih it h

theorem filter_not_setQtyFirst (pid : String) (q : Int) :
    ∀ items : List LineItem,
      (setQtyFirst items pid q).filter (fun x => !(x.id == pid)) =
        items.filter (fun x => !(x.id == pid)) := by
  intro items
  induction items with
  | nil => rfl
  | cons x xs ih =>
    cases hx : (x.id == pid) with
    | true =>
      have hbc : setQtyFirst (x :: xs) pid q = { x with quantity := q } :: xs := by
        simp [setQtyFirst, hx]
      rw [hbc]
      have h1 : ({ x with quantity := q } :: xs).filter (fun y => !(y.id == pid)) =
          xs.filter (fun y => !(y.id == pid)) := by
        simp [List.filter_cons, hx]
      have h2 : (x :: xs).filter (fun y => !(y.id == pid)) =
          xs.filter (fun y => !(y.id == pid)) := by
        simp [List.filter_cons, hx]
      rw [h1, h2]
    | false =>
      have hbc : setQtyFirst (x :: xs) pid q = x :: setQtyFirst xs pid q := by
        simp [setQtyFirst, hx]
      rw [hbc]
      have h1 : (x :: setQtyFirst xs pid q).filter (fun y => !(y.id == pid)) =
          x :: (setQtyFirst xs pid q).filter (fun y => !(y.id == pid)) := by
        simp [List.filter_cons, hx]
      have h2 : (x :: xs).filter (fun y => !(y.id == pid)) =
          x :: xs.filter (fun y => !(y.id == pid)) := by
        simp [List.filter_cons, hx]
      rw [h1, h2, ih]

theorem length_setQtyFirst (pid : String) (q : Int) :
    ∀ items : List LineItem, (setQtyFirst items pid q).length = items.length := by
  intro items
  induction items with
  | nil => rfl
  | cons x xs ih =>
    cases hx : (x.id == pid) with
    | true => simp [setQtyFirst, hx]
    | false => simp [setQtyFirst, hx, ih]

theorem removeItem_absent (s : CartState) (pid : String)
    (h : ∀ x ∈ s.items, (x.id == pid) = false) : removeItem s pid = s := by
  unfold removeItem
  have hself : s.items.filter (fun it => !(it.id == pid)) = s.items :=
    List.filter_eq_self.mpr (fun a ha => by simp [h a ha])
  rw [hself]

/-- C7: updateQuantity with quantity ≤ 0 produces the same state as
    removeItem; for an absent id both updateQuantity and removeItem
    leave the cart unchanged; with quantity ≥ 1 it sets the (unique)
    matching item's quantity to exactly that value, leaving the other
    items and the item-list length unchanged. -/
theorem updateQuantity_spec :
    ∀ (s : CartState) (pid : String) (q : Int),
      (q ≤ 0 → updateQuantity s pid q = removeItem s pid) ∧
      ((∀ x ∈ s.items, (x.id == pid) = false) →
        updateQuantity s pid q = s ∧ removeItem s pid = s) ∧
      (∀ it : LineItem, 1 ≤ q →
        s.items.filter (fun x => x.id == pid) = [it] →
        (updateQuantity s pid q).items.filter (fun x => x.id == pid) =
            [{ it with quantity := q }] ∧
          (updateQuantity s pid q).items.filter (fun x => !(x.id == pid)) =
            s.items.filter (fun x => !(x.id == pid)) ∧
          (updateQuantity s pid q).items.length = s.items.length) := by
  intro s pid q
  refine ⟨?_, ?_, ?_⟩
  · intro hq
    cases hany : s.items.any fun it => it.id == pid with
    | true => simp [updateQuantity, hany, hq]
    | false =>
      have habs : ∀ x ∈ s.items, (x.id == pid) = false := by
        intro x hx
        have hnx := List.any_eq_false.mp hany x hx
        cases h2 : (x.id == pid) with
        | true => exact absurd h2 hnx
        | false => rfl
      rw [show updateQuantity s pid q = s from by simp [updateQuantity, hany]]
      exact (removeItem_absent s pid habs).symm
  · intro habs
    have hany : (s.items.any fun it => it.id == pid) = false := by
      rw [List.any_eq_false]
      intro x hx
      simp [habs x hx]
    exact ⟨by simp [updateQuantity, hany], removeItem_absent s pid habs⟩
  · intro it hq hfil
    have hany := any_of_filter_single hfil
    have hq2 : ¬(q ≤ 0) := by omega
    have hupd : updateQuantity s pid q =
        { s with items := setQtyFirst s.items pid q } := by
      simp [updateQuantity, hany, hq2]
    rw [hupd]
    exact ⟨filter_setQtyFirst_single pid q s.items it hfil,
           filter_not_setQtyFirst pid q s.items,
           length_setQtyFirst pid q s.items⟩

/-- The single item and cart used by concrete instantiations. -/
def witnessItem : LineItem :=
  { id := "a", name := some "Choc", price := 4, quantity := 3,
    imageUrl := "", category := "", discount := 0 }

def witnessCart : CartState := { items := [witnessItem], discountRate := 0 }

/-- C7 witness: on a one-item cart, updateQuantity to 5 sets the
    quantity to 5, updateQuantity to 0 removes like removeItem, and an
    absent id is a no-op. -/
theorem updateQuantity_spec_witness :
    (updateQuantity witnessCart "a" 5).items.filter (fun x => x.id == "a") =
      [{ witnessItem with quantity := 5 }] ∧
    updateQuantity witnessCart "a" 0 = removeItem witnessCart "a" ∧
    updateQuantity witnessCart "b" 7 = witnessCart :=
  ⟨((updateQuantity_spec witnessCart "a" 5).2.2 witnessItem (by decide)
      (by decide)).1,
   (updateQuantity_spec witnessCart "a" 0).1 (by decide),
   ((updateQuantity_spec witnessCart "b" 7).2.1 (by decide)).1⟩

/-- C4 counterexample: applyDiscountCode on an empty-string code and on
    a non-string code exits through the bare `return` and yields
    undefined, not the boolean false the claim states. -/
theorem applyDiscountCode_empty_returns_undefined :
    (applyDiscountCode witnessCart (some "")).1 = none ∧
    (applyDiscountCode witnessCart none).1 = none ∧
    (none : Option Bool) ≠ some false :=
  ⟨rfl, rfl, by decide⟩

/-- C4 amended: applyDiscountCode trims and uppercases the code and
    looks it up in the fixed table; on a match it overwrites
    globalDiscountRate with the table value, persists the envelope and
    returns true; on a non-matching nonempty string it returns false and
    leaves the state unchanged with no storage write; on an empty or
    non-string input it leaves the state unchanged with no storage write
    but returns undefined rather than false. -/
theorem applyDiscountCode_spec :
    ∀ s : CartState,
      applyDiscountCode s none = (none, s, none) ∧
      applyDiscountCode s (some "") = (none, s, none) ∧
      (∀ c : String, c.isEmpty = false →
        discountCodes.lookup (normalizeCode c) = none →
        applyDiscountCode s (some c) = (some false, s, none)) ∧
      (∀ (c : String) (r : ℚ), c.isEmpty = false →
        discountCodes.lookup (normalizeCode c) = some r →
        applyDiscountCode s (some c) =
          (some true, { s with discountRate := r },
            some (StoredValue.envelope s.items r))) := by
  intro s
  refine ⟨rfl, rfl, ?_, ?_⟩
  · intro c hne hlk
    simp [applyDiscountCode, hne, hlk]
  · intro c r hne hlk
    simp [applyDiscountCode, hne, hlk, saveToStorage]

/-- C4 witness: applying " save10" (trimmed, uppercased to SAVE10)
    overwrites the rate with 0.10, persists the envelope and returns
    true; "NOPE" returns false and changes nothing. -/
theorem applyDiscountCode_spec_witness :
    applyDiscountCode witnessCart (some " save10") =
      (some true, { witnessCart with discountRate := 1/10 },
        some (StoredValue.envelope witnessCart.items (1/10))) ∧
    applyDiscountCode witnessCart (some "NOPE") =
      (some false, witnessCart, none) :=
  ⟨(applyDiscountCode_spec witnessCart).2.2.2 " save10" (1/10) rfl rfl,
   (applyDiscountCode_spec witnessCart).2.2.1 "NOPE" rfl rfl⟩

/-- The item stored by the other tab in the C5 scenario. -/
def demoItem : LineItem :=
  { id := "p2", name := some "Tea", price := 3, quantity := 1,
    imageUrl := "", category := "", discount := 0 }

/-- C5: the storage-event handler does not perform the full reload the
    claim describes.  Failing input: a same-key storage event whose
    stored value is the envelope { items: [demoItem], discountRate: 0.15 }
    arriving at a tab with an empty cart: the handler assigns the whole
    envelope object to this.items instead of the stored item list, and
    leaves this.discountRate at 0 instead of 0.15. -/
theorem storage_event_no_full_reload :
    handleStorageEvent STORAGE_KEY { items := [], discountRate := 0 }
        (StoredValue.envelope [demoItem] (15/100)) =
      { itemsField := ItemsField.envObj [demoItem] (15/100),
        discountRate := 0 } ∧
    (handleStorageEvent STORAGE_KEY { items := [], discountRate := 0 }
        (StoredValue.envelope [demoItem] (15/100))).itemsField ≠
      ItemsField.list [demoItem] ∧
    (handleStorageEvent STORAGE_KEY { items := [], discountRate := 0 }
        (StoredValue.envelope [demoItem] (15/100))).discountRate ≠ 15/100 := by
  refine ⟨rfl, by decide, ?_⟩
  show (0 : ℚ) ≠ 15/100
  norm_num

/-- C6 counterexample: addItem performs no quantity validation: called
    with quantity 0 on an empty cart it reports success and stores a
    zero-quantity line item instead of triggering a removal. -/
theorem addItem_zero_quantity_stored :
    (addItem { items := [], discountRate := 0 } (some wProduct) 0).1 = true ∧
    (addItem { items := [], discountRate := 0 } (some wProduct) 0).2.items.all
        (fun it => decide (1 ≤ it.quantity)) = false ∧
    (addItem { items := [], discountRate := 0 } (some wProduct) 0).2.items ≠ [] :=
  ⟨rfl, rfl, by decide⟩

/-- One public mutating engine operation. -/
inductive CartOp where
  | add (p : Option Product) (q : Int)
  | update (pid : String) (q : Int)
  | remove (pid : String)
  | clearAll
deriving Repr

/-- Run one public mutating operation (clear taken on its confirmed path). -/
def applyOp (s : CartState) : CartOp → CartState
  | .add p q => (addItem s p q).2
  | .update pid q => updateQuantity s pid q
  | .remove pid => removeItem s pid
  | .clearAll => clear s

/-- The quantity precondition the spec places on addItem calls
    ("may be any positive integer"); the other operations take any
    argument. -/
def opValid : CartOp → Prop
  | .add _ q => 1 ≤ q
  | _ => True

/-- All line items of the cart have quantity ≥ 1. -/
def AllPos (s : CartState) : Prop :=
  ∀ it ∈ s.items, 1 ≤ it.quantity

theorem allPos_bumpFirst (pid : String) (q : Int) :
    ∀ items : List LineItem, (∀ x ∈ items, 1 ≤ x.quantity) → 1 ≤ q →
      ∀ x ∈ bumpFirst items pid q, 1 ≤ x.quantity := by
  intro items
  induction items with
  | nil => intro _ _ x hx; cases hx
  | cons y ys ih =>
    intro hall hq x hx
    cases hy : (y.id == pid) with
    | true =>
      rw [show bumpFirst (y :: ys) pid q =
            { y with quantity := y.quantity + q } :: ys from by
          simp [bumpFirst, hy]] at hx
      rcases List.mem_cons.mp hx with rfl | hmem
      · have := hall y (List.mem_cons_self y ys)
        show 1 ≤ y.quantity + q
        omega
      · exact hall x (List.mem_cons_of_mem y hmem)
    | false =>
      rw [show bumpFirst (y :: ys) pid q = y :: bumpFirst ys pid q from by
          simp [bumpFirst, hy]] at hx
      rcases List.mem_cons.mp hx with rfl | hmem
      · exact hall x (List.mem_cons_self x ys)
      · exact ih (fun z hz => hall z (List.mem_cons_of_mem y hz)) hq x hmem

theorem allPos_setQtyFirst (pid : String) (q : Int) :
    ∀ items : List LineItem, (∀ x ∈ items, 1 ≤ x.quantity) → 1 ≤ q →
      ∀ x ∈ setQtyFirst items pid q, 1 ≤ x.quantity := by
  intro items
  induction items with
  | nil => intro _ _ x hx; cases hx
  | cons y ys ih =>
    intro hall hq x hx
    cases hy : (y.id == pid) with
    | true =>
      rw [show setQtyFirst (y :: ys) pid q =
            { y with quantity := q } :: ys from by simp [setQtyFirst, hy]] at hx
      rcases List.mem_cons.mp hx with rfl | hmem
      · exact hq
      · exact hall x (List.mem_cons_of_mem y hmem)
    | false =>
      rw [show setQtyFirst (y :: ys) pid q = y :: setQtyFirst ys pid q from by
          simp [setQtyFirst, hy]] at hx
      rcases List.mem_cons.mp hx with rfl | hmem
      · exact hall x (List.mem_cons_self x ys)
      · exact ih (fun z hz => hall z (List.mem_cons_of_mem y hz)) hq x hmem

/-- C6 amended: every public mutating operation preserves the invariant
    that all stored quantities are ≥ 1, provided each addItem call uses a
    quantity ≥ 1 (the spec's stated precondition): the code itself never
    validates addItem's quantity, and updateQuantity removes on ≤ 0
    rather than storing it. -/
theorem quantity_invariant_preserved (s : CartState) (op : CartOp)
    (hs : AllPos s) (hop : opValid op) : AllPos (applyOp s op) := by
  cases op with
  | add p q =>
    cases p with
    | none => exact hs
    | some pr =>
      have hq : 1 ≤ q := hop
      cases hpid : pr.id with
      | none =>
        rw [show applyOp s (.add (some pr) q) = s from by
            simp [applyOp, addItem, hpid]]
        exact hs
      | some pid =>
        cases hemp : pid.isEmpty with
        | true =>
          rw [show applyOp s (.add (some pr) q) = s from by
              simp [applyOp, addItem, hpid, hemp]]
          exact hs
        | false =>
          cases hany : s.items.any fun it => it.id == pid with
          | true =>
            rw [show applyOp s (.add (some pr) q) =
                  { s with items := bumpFirst s.items pid q } from by
                simp [applyOp, addItem, hpid, hemp, hany]]
            intro it hit
            exact allPos_bumpFirst pid q s.items hs hq it hit
          | false =>
            rw [show applyOp s (.add (some pr) q) =
                  { s with items := s.items ++ [newLineItem pr pid q] } from by
                simp [applyOp, addItem, hpid, hemp, hany]]
            intro it hit
            rcases List.mem_append.mp hit with h1 | h2
            · exact hs it h1
            · rw [List.mem_singleton.mp h2]
              exact hq
  | update pid q =>
    cases hany : s.items.any fun it => it.id == pid with
    | false =>
      rw [show applyOp s (.update pid q) = s from by
          simp [applyOp, updateQuantity, hany]]
      exact hs
    | true =>
      by_cases hq : q ≤ 0
      · rw [show applyOp s (.update pid q) = removeItem s pid from by
            simp [applyOp, updateQuantity, hany, hq]]
        intro it hit
        exact hs it (List.mem_filter.mp hit).1
      · rw [show applyOp s (.update pid q) =
              { s with items := setQtyFirst s.items pid q } from by
            simp [applyOp, updateQuantity, hany, hq]]
        intro it hit
        exact allPos_setQtyFirst pid q s.items hs (by omega) it hit
  | remove pid =>
    intro it hit
    exact hs it (List.mem_filter.mp hit).1
  | clearAll =>
    intro it hit
    cases hit

/-- C6 amended witness: adding quantity 2 to the empty cart keeps all
    quantities ≥ 1. -/
theorem quantity_invariant_preserved_witness :
    AllPos (applyOp { items := [], discountRate := 0 }
      (CartOp.add (some wProduct) 2)) :=
  quantity_invariant_preserved { items := [], discountRate := 0 }
    (CartOp.add (some wProduct) 2)
    (fun it hit => absurd hit (List.not_mem_nil it))
    (by show (1 : Int) ≤ 2; decide)

/-- A product with an id but no name, for C8. -/
def noNameProduct : Product :=
  { id := some "x9", name := none, price := 2, imageUrl := none,
    category := none, discount := none }

/-- C8 counterexample: addItem does not require product.name: a product
    carrying an id but no name is accepted, the call returns true and
    the cart is mutated. -/
theorem addItem_missing_name_accepted :
    (addItem { items := [], discountRate := 0 } (some noNameProduct) 1).1 =
      true ∧
    (addItem { items := [], discountRate := 0 } (some noNameProduct) 1).2 ≠
      { items := [], discountRate := 0 } :=
  ⟨rfl, by decide⟩

/-- The validity test addItem actually performs: the negation of
    `!product || !product.id` (an empty-string id is falsy). -/
def productValid : Option Product → Bool
  | none => false
  | some p =>
    match p.id with
    | none => false
    | some pid => !pid.isEmpty

/-- C8 amended: addItem validates only the product and its id, not the
    name: it returns false exactly when the product is missing or its id
    is missing or empty, and on such input the cart state is unchanged;
    on every other input it returns true. -/
theorem addItem_validation :
    ∀ (s : CartState) (p : Option Product) (q : Int),
      ((addItem s p q).1 = false ↔ productValid p = false) ∧
      (productValid p = false → (addItem s p q).2 = s) ∧
      (productValid p = true → (addItem s p q).1 = true) := by
  intro s p q
  cases p with
  | none =>
    exact ⟨by simp [addItem, productValid], fun _ => rfl,
      by simp [productValid]⟩
  | some pr =>
    cases hpid : pr.id with
    | none =>
      refine ⟨by simp [addItem, productValid, hpid],
        fun _ => by simp [addItem, hpid], ?_⟩
      intro ht
      simp [productValid, hpid] at ht
    | some pid =>
      cases hemp : pid.isEmpty with
      | true =>
        refine ⟨by simp [addItem, productValid, hpid, hemp],
          fun _ => by simp [addItem, hpid, hemp], ?_⟩
        intro ht
        simp [productValid, hpid, hemp] at ht
      | false =>
        cases hany : s.items.any fun it => it.id == pid with
        | true =>
          refine ⟨by simp [addItem, productValid, hpid, hemp, hany], ?_,
            fun _ => by simp [addItem, hpid, hemp, hany]⟩
          intro hf
          simp [productValid, hpid, hemp] at hf
        | false =>
          refine ⟨by simp [addItem, productValid, hpid, hemp, hany], ?_,
            fun _ => by simp [addItem, hpid, hemp, hany]⟩
          intro hf
          simp [productValid, hpid, hemp] at hf

/-- C8 amended witness: a missing product is rejected with the cart
    unchanged; a product with an id and a name is accepted. -/
theorem addItem_validation_witness :
    (addItem { items := [], discountRate := 0 } none 1).2 =
      { items := [], discountRate := 0 } ∧
    (addItem { items := [], discountRate := 0 } (some wProduct) 1).1 = true :=
  ⟨(addItem_validation { items := [], discountRate := 0 } none 1).2.1 rfl,
   (addItem_validation { items := [], discountRate := 0 } (some wProduct) 1).2.2
     rfl⟩
